import Mathlib

/-!
rpilcd: HD44780 character LCD driven over six GPIO lines (4-bit bus)

Shallow embedding of `raspberrypi_lcd_hd44780.c`.

The driver only talks to the outside world through four kernel primitives:
`gpio_set_value`, `gpio_get_value`, `udelay` and `usleep_range`.  The
embedding keeps the level of the six lines and a log of every primitive call
that has an effect (`Event`), in call order.  Each driver function is a
sequence of these primitive calls, written in the same order as the C text.
-/

namespace Rpilcd

/-! ## Data model -/

/-- The six lines of the display (`LCD_RS` .. `LCD_D7` in the source). -/
inductive Pin where
  | LCD_RS
  | LCD_EN
  | LCD_D4
  | LCD_D5
  | LCD_D6
  | LCD_D7
  deriving DecidableEq, Repr

/-- One call of a kernel primitive with an outside effect. -/
inductive Event where
  | gpio_set (pin : Pin) (value : Nat)
  | udelay (usecs : Nat)
  | usleep_range (min max : Nat)
  deriving DecidableEq, Repr

/-- Output level of each of the six lines (`true` is high). -/
structure Pins where
  rs : Bool
  en : Bool
  d4 : Bool
  d5 : Bool
  d6 : Bool
  d7 : Bool
  deriving DecidableEq, Repr

/-- Driver state: the line levels and the log of primitive calls so far. -/
structure State where
  pins : Pins
  trace : List Event
  deriving DecidableEq, Repr

/-- Levels requested in `rpilcd_gpios`: every line is `GPIOF_OUT_INIT_LOW`. -/
def rpilcd_gpios : Pins :=
  { rs := false, en := false, d4 := false, d5 := false, d6 := false, d7 := false }

/-- Level a line takes when `value` is written to it: any non-zero value is high. -/
def Pins.set (p : Pins) (pin : Pin) (value : Nat) : Pins :=
  match pin with
  | Pin.LCD_RS => { p with rs := decide (value ≠ 0) }
  | Pin.LCD_EN => { p with en := decide (value ≠ 0) }
  | Pin.LCD_D4 => { p with d4 := decide (value ≠ 0) }
  | Pin.LCD_D5 => { p with d5 := decide (value ≠ 0) }
  | Pin.LCD_D6 => { p with d6 := decide (value ≠ 0) }
  | Pin.LCD_D7 => { p with d7 := decide (value ≠ 0) }

/-- Level of one line. -/
def Pins.get (p : Pins) (pin : Pin) : Bool :=
  match pin with
  | Pin.LCD_RS => p.rs
  | Pin.LCD_EN => p.en
  | Pin.LCD_D4 => p.d4
  | Pin.LCD_D5 => p.d5
  | Pin.LCD_D6 => p.d6
  | Pin.LCD_D7 => p.d7

/-! ## Kernel primitives -/

/-- Kernel `gpio_set_value(pin, value)`: drives the line and is logged. -/
def gpio_set_value (pin : Pin) (value : Nat) (st : State) : State :=
  { pins := st.pins.set pin value, trace := st.trace ++ [Event.gpio_set pin value] }

/-- Kernel `gpio_get_value(pin)`: reads the line level back as 0 or 1. -/
def gpio_get_value (pin : Pin) (st : State) : Nat :=
  if st.pins.get pin then 1 else 0

/-- Kernel `udelay(usecs)`: busy wait, logged. -/
def udelay (usecs : Nat) (st : State) : State :=
  { st with trace := st.trace ++ [Event.udelay usecs] }

/-- Kernel `usleep_range(min, max)`: sleep of at least `min` microseconds, logged. -/
def usleep_range (min max : Nat) (st : State) : State :=
  { st with trace := st.trace ++ [Event.usleep_range min max] }

/-- Conversion of a C integer to `unsigned char` / `uint8_t` (reduction modulo 256). -/
def to_u8 (x : Int) : Nat := (x % 256).toNat

/-! ## Driver functions -/

/-- Source `rpilcd_write_byte` (lines 120-149). -/
def rpilcd_write_byte (ui8_byte : Nat) (st : State) : State :=
  let st := gpio_set_value Pin.LCD_D4 ((ui8_byte >>> 4) &&& 0x01) st
  let st := gpio_set_value Pin.LCD_D5 ((ui8_byte >>> 5) &&& 0x01) st
  let st := gpio_set_value Pin.LCD_D6 ((ui8_byte >>> 6) &&& 0x01) st
  let st := gpio_set_value Pin.LCD_D7 ((ui8_byte >>> 7) &&& 0x01) st
  let st := gpio_set_value Pin.LCD_EN 1 st
  let st := udelay 1 st
  let st := gpio_set_value Pin.LCD_EN 0 st
  let st := if gpio_get_value Pin.LCD_RS st = 1 then udelay 200 st
            else usleep_range 4500 5500 st
  let st := gpio_set_value Pin.LCD_D4 (ui8_byte &&& 0x01) st
  let st := gpio_set_value Pin.LCD_D5 ((ui8_byte >>> 1) &&& 0x01) st
  let st := gpio_set_value Pin.LCD_D6 ((ui8_byte >>> 2) &&& 0x01) st
  let st := gpio_set_value Pin.LCD_D7 ((ui8_byte >>> 3) &&& 0x01) st
  let st := gpio_set_value Pin.LCD_EN 1 st
  let st := udelay 1 st
  let st := gpio_set_value Pin.LCD_EN 0 st
  if gpio_get_value Pin.LCD_RS st = 1 then udelay 200 st
  else usleep_range 4500 5500 st

/-- Value of `ui8_command` when `rpilcd_set_cursor` reaches its call of
`rpilcd_write_byte` (lines 156-169): the `switch` on the row, with the
`uint8_t` compound additions done in `int` and truncated on assignment. -/
def set_cursor_command (ui8_row ui8_column : Nat) : Nat :=
  let ui8_command : Nat := 0x80
  match ui8_row with
  | 1 => to_u8 ((ui8_command : Int) + ((ui8_column : Int) - 1))
  | 2 => to_u8 ((ui8_command : Int) + (0x40 + ((ui8_column : Int) - 1)))
  | _ => ui8_command

/-- Source `rpilcd_set_cursor` (lines 154-172). -/
def rpilcd_set_cursor (ui8_row ui8_column : Nat) (st : State) : State :=
  let st := gpio_set_value Pin.LCD_RS 0 st
  rpilcd_write_byte (set_cursor_command ui8_row ui8_column) st

/-- The `while(*sz_string != '\0')` loop of `rpilcd_put_string` (lines 181-183).
The list holds the `char`s found at the pointer; the buffer is NUL-terminated,
so the end of the list reads as the terminator.  Each `char` is converted to
the `unsigned char` parameter of `rpilcd_write_byte`. -/
def put_string_loop : List Int → State → State
  | [], st => st
  | c :: rest, st =>
    if c ≠ 0 then put_string_loop rest (rpilcd_write_byte (to_u8 c) st) else st

/-- Source `rpilcd_put_string` (lines 178-190); `none` is the null pointer.
Returns the `int` result together with the state. -/
def rpilcd_put_string (sz_string : Option (List Int)) (st : State) : Int × State :=
  match sz_string with
  | some s =>
    let st := gpio_set_value Pin.LCD_RS 1 st
    let st := put_string_loop s st
    let st := gpio_set_value Pin.LCD_RS 0 st
    (0, st)
  | none => (-1, st)

/-- Source `rpilcd_put_char` (lines 195-199). -/
def rpilcd_put_char (i8_char : Int) (st : State) : State :=
  let st := gpio_set_value Pin.LCD_RS 1 st
  let st := rpilcd_write_byte (to_u8 i8_char) st
  gpio_set_value Pin.LCD_RS 0 st

/-- Source `rpilcd_clear_display` (lines 204-207). -/
def rpilcd_clear_display (st : State) : State :=
  let st := gpio_set_value Pin.LCD_RS 0 st
  rpilcd_write_byte 0x01 st

/-- Source `rpilcd_init_display` (lines 213-296). -/
def rpilcd_init_display (st : State) : Int × State :=
  let i32_ret : Int := 0
  let st := usleep_range 15000 16000 st
  let st := gpio_set_value Pin.LCD_D4 1 st
  let st := gpio_set_value Pin.LCD_D5 1 st
  let st := gpio_set_value Pin.LCD_D6 0 st
  let st := gpio_set_value Pin.LCD_D7 0 st
  let st := gpio_set_value Pin.LCD_EN 1 st
  let st := udelay 1 st
  let st := gpio_set_value Pin.LCD_EN 0 st
  let st := usleep_range 4200 5000 st
  let st := gpio_set_value Pin.LCD_EN 1 st
  let st := udelay 1 st
  let st := gpio_set_value Pin.LCD_EN 0 st
  let st := udelay 200 st
  let st := gpio_set_value Pin.LCD_EN 1 st
  let st := udelay 1 st
  let st := gpio_set_value Pin.LCD_EN 0 st
  let st := udelay 200 st
  let st := gpio_set_value Pin.LCD_D4 0 st
  let st := gpio_set_value Pin.LCD_D5 1 st
  let st := gpio_set_value Pin.LCD_D6 0 st
  let st := gpio_set_value Pin.LCD_D7 0 st
  let st := gpio_set_value Pin.LCD_EN 1 st
  let st := udelay 1 st
  let st := gpio_set_value Pin.LCD_EN 0 st
  let st := usleep_range 4200 5000 st
  let st := rpilcd_write_byte 0x28 st
  let st := rpilcd_write_byte 0x08 st
  let st := rpilcd_write_byte 0x01 st
  let st := rpilcd_write_byte 0x06 st
  let st := rpilcd_write_byte 0x0C st
  (i32_ret, st)

/-- Value an `int` holds after an arithmetic result `x`: two's-complement wrap to 32
bits (the kernel is built with `-fno-strict-overflow`); the identity on values that fit. -/
def wrap_i32 (x : Int) : Int := (x + 2 ^ 31) % 2 ^ 32 - 2 ^ 31

/-- The `for` loop of `rpilcd_pow` (lines 309-311): `n` iterations left, each doing
`i32_ret *= i32_power`. -/
def pow_loop (i32_power : Int) : Nat → Int → Int
  | 0, i32_ret => i32_ret
  | n + 1, i32_ret => pow_loop i32_power n (wrap_i32 (i32_ret * i32_power))

/-- Source `rpilcd_pow` (lines 301-313).  The loop runs for `i32_idx` from 1 while
`i32_idx < i32_value`, that is `i32_value - 1` times (not at all when that is negative). -/
def rpilcd_pow (i32_value i32_power : Int) : Int :=
  let i32_ret : Int := 1
  let i32_ret := if i32_value > 0 then i32_power else i32_ret
  pow_loop i32_power (i32_value - 1).toNat i32_ret

/-- The `for` loop of `rpilcd_atoi` (lines 322-328), with `i32_idx + 1` as the counter:
at counter 0 the loop is over and the function returns 0.  `buf i` is the `char` at
index `i` of the buffer; the result is the `int` returned and the value left in
`*pi32_value`. -/
def atoi_loop (buf : Nat → Int) (count : Nat) : Nat → Int → Int × Int
  | 0, value => (0, value)
  | i32_idx + 1, value =>
    if buf i32_idx ≥ 0x30 ∧ buf i32_idx ≤ 0x39 then
      atoi_loop buf count i32_idx
        (wrap_i32 (value + wrap_i32 ((buf i32_idx - 0x30) *
          rpilcd_pow (wrap_i32 (wrap_i32 ((count : Int) - 1) - (i32_idx : Int))) 10)))
    else (-1, value)

/-- Source `rpilcd_atoi` (lines 318-330).  `count` is a `size_t`; the loop starts at
`(int)count - 1` and is not entered when that is negative. -/
def rpilcd_atoi (buf : Nat → Int) (count : Nat) : Int × Int :=
  atoi_loop buf count (wrap_i32 (wrap_i32 (count : Int) - 1) + 1).toNat 0

/-! ## Observing a trace: what the controller latches -/

/-- What the HD44780 samples on a falling edge of EN: RS and the four data lines. -/
structure Latch where
  rs : Bool
  d4 : Bool
  d5 : Bool
  d6 : Bool
  d7 : Bool
  deriving DecidableEq, Repr

/-- The 4-bit value on D7..D4 (D4 is the least significant bit). -/
def Latch.nibble (l : Latch) : Nat :=
  (if l.d4 then 1 else 0) + (if l.d5 then 2 else 0) +
    (if l.d6 then 4 else 0) + (if l.d7 then 8 else 0)

/-- Sample of the lines as the controller sees them. -/
def Pins.latch (p : Pins) : Latch :=
  { rs := p.rs, d4 := p.d4, d5 := p.d5, d6 := p.d6, d7 := p.d7 }

/-- Line levels after replaying a list of events from levels `p`. -/
def replay : Pins → List Event → Pins
  | p, [] => p
  | p, Event.gpio_set pin v :: es => replay (p.set pin v) es
  | p, _ :: es => replay p es

/-- The samples latched while a list of events is replayed from levels `p`:
one sample for each falling edge of EN (a write of 0 to EN while EN is high),
taken from the levels just before the edge. -/
def latched : Pins → List Event → List Latch
  | _, [] => []
  | p, Event.gpio_set pin v :: es =>
    if pin = Pin.LCD_EN ∧ p.en = true ∧ v = 0 then p.latch :: latched (p.set pin v) es
    else latched (p.set pin v) es
  | p, _ :: es => latched p es

/-- The events a state `after` has logged beyond those of `before`. -/
def emitted (before after : State) : List Event :=
  after.trace.drop before.trace.length

/-- Pairs consecutive nibbles as bytes, high nibble first. -/
def pair_bytes : List Latch → List Nat
  | hi :: lo :: rest => (hi.nibble * 16 + lo.nibble) :: pair_bytes rest
  | _ => []

/-- Number of writes to the line `pin` in a list of events. -/
def count_writes (pin : Pin) : List Event → Nat
  | [] => 0
  | Event.gpio_set q _ :: es => (if q = pin then 1 else 0) + count_writes pin es
  | _ :: es => count_writes pin es

/-- The wait `rpilcd_write_byte` makes after an EN pulse when RS reads back as `rs`
(lines 129-134 and 143-148). -/
def settle_event (rs : Bool) : Event :=
  if rs then Event.udelay 200 else Event.usleep_range 4500 5500

/-- The sixteen events of one call `rpilcd_write_byte b` made while RS is at level `rs`. -/
def write_byte_events (b : Nat) (rs : Bool) : List Event :=
  [ Event.gpio_set Pin.LCD_D4 ((b >>> 4) &&& 1),
    Event.gpio_set Pin.LCD_D5 ((b >>> 5) &&& 1),
    Event.gpio_set Pin.LCD_D6 ((b >>> 6) &&& 1),
    Event.gpio_set Pin.LCD_D7 ((b >>> 7) &&& 1),
    Event.gpio_set Pin.LCD_EN 1, Event.udelay 1, Event.gpio_set Pin.LCD_EN 0,
    settle_event rs,
    Event.gpio_set Pin.LCD_D4 (b &&& 1),
    Event.gpio_set Pin.LCD_D5 ((b >>> 1) &&& 1),
    Event.gpio_set Pin.LCD_D6 ((b >>> 2) &&& 1),
    Event.gpio_set Pin.LCD_D7 ((b >>> 3) &&& 1),
    Event.gpio_set Pin.LCD_EN 1, Event.udelay 1, Event.gpio_set Pin.LCD_EN 0,
    settle_event rs ]

/-- The sample latched for the high nibble of `b` with RS at `rs`. -/
def high_latch (rs : Bool) (b : Nat) : Latch :=
  { rs := rs, d4 := b.testBit 4, d5 := b.testBit 5, d6 := b.testBit 6, d7 := b.testBit 7 }

/-- The sample latched for the low nibble of `b` with RS at `rs`. -/
def low_latch (rs : Bool) (b : Nat) : Latch :=
  { rs := rs, d4 := b.testBit 0, d5 := b.testBit 1, d6 := b.testBit 2, d7 := b.testBit 3 }

/-- The state every driver scenario starts from: all lines low, empty log. -/
def power_on : State := { pins := rpilcd_gpios, trace := [] }

/-- Address mapping in the words of the specification (AddressMapper): row 1 gives
`column - 1`, row 2 gives `0x40 + column - 1`, any other row gives 0, as an 8-bit value. -/
def spec_map (row column : Nat) : Nat :=
  match row with
  | 1 => to_u8 ((column : Int) - 1)
  | 2 => to_u8 (0x40 + (column : Int) - 1)
  | _ => 0

/-- The event that directly follows each write of 0 to EN: the wait made after each
EN pulse. -/
def settle_waits : List Event → List Event
  | [] => []
  | e :: es =>
    if e = Event.gpio_set Pin.LCD_EN 0 then es.head?.toList ++ settle_waits es
    else settle_waits es

/-- The events `rpilcd_put_string` logs for the characters `s` between its two RS writes. -/
def string_events (s : List Int) : List Event :=
  s.flatMap (fun c => write_byte_events (to_u8 c) true)

/-- The samples latched for the characters `s`, two for each character, RS high. -/
def string_latches (s : List Int) : List Latch :=
  s.flatMap (fun c => [high_latch true (to_u8 c), low_latch true (to_u8 c)])

/-- The events `rpilcd_init_display` logs when RS is at level `rs` throughout. -/
def init_display_events (rs : Bool) : List Event :=
  [ Event.usleep_range 15000 16000,
    Event.gpio_set Pin.LCD_D4 1, Event.gpio_set Pin.LCD_D5 1,
    Event.gpio_set Pin.LCD_D6 0, Event.gpio_set Pin.LCD_D7 0,
    Event.gpio_set Pin.LCD_EN 1, Event.udelay 1, Event.gpio_set Pin.LCD_EN 0,
    Event.usleep_range 4200 5000,
    Event.gpio_set Pin.LCD_EN 1, Event.udelay 1, Event.gpio_set Pin.LCD_EN 0,
    Event.udelay 200,
    Event.gpio_set Pin.LCD_EN 1, Event.udelay 1, Event.gpio_set Pin.LCD_EN 0,
    Event.udelay 200,
    Event.gpio_set Pin.LCD_D4 0, Event.gpio_set Pin.LCD_D5 1,
    Event.gpio_set Pin.LCD_D6 0, Event.gpio_set Pin.LCD_D7 0,
    Event.gpio_set Pin.LCD_EN 1, Event.udelay 1, Event.gpio_set Pin.LCD_EN 0,
    Event.usleep_range 4200 5000 ] ++
  write_byte_events 0x28 rs ++ write_byte_events 0x08 rs ++ write_byte_events 0x01 rs ++
    write_byte_events 0x06 rs ++ write_byte_events 0x0C rs

/-- Guaranteed minimum duration of an event in microseconds: the argument of `udelay`,
the lower bound of `usleep_range`, nothing for a GPIO write. -/
def Event.min_usecs : Event → Nat
  | Event.gpio_set _ _ => 0
  | Event.udelay usecs => usecs
  | Event.usleep_range min _ => min

/-- For each write of a non-zero value to EN (the start of an EN pulse), the guaranteed
minimum time since the previous write to EN, or since the start of the list for the
first one; `acc` is the time accumulated so far. -/
def rise_gaps : Nat → List Event → List Nat
  | _, [] => []
  | acc, Event.gpio_set pin v :: es =>
    if pin = Pin.LCD_EN then
      (if v ≠ 0 then acc :: rise_gaps 0 es else rise_gaps 0 es)
    else rise_gaps acc es
  | acc, e :: es => rise_gaps (acc + e.min_usecs) es

/-- For each write of 0 to EN (the end of an EN pulse), the guaranteed minimum time
since the previous write to EN: how long the pulse is held high. -/
def hold_times : Nat → List Event → List Nat
  | _, [] => []
  | acc, Event.gpio_set pin v :: es =>
    if pin = Pin.LCD_EN then
      (if v = 0 then acc :: hold_times 0 es else hold_times 0 es)
    else hold_times acc es
  | acc, e :: es => hold_times (acc + e.min_usecs) es

/-- The resting state of the lines: RS low and EN low. -/
def resting (st : State) : Prop := st.pins.rs = false ∧ st.pins.en = false

/-- One call of a driver operation with its arguments. -/
inductive Op where
  | init_display
  | clear_display
  | set_cursor (row col : Nat)
  | put_char (ch : Int)
  | put_string (s : Option (List Int))

/-- The state after one driver operation. -/
def Op.run : Op → State → State
  | Op.init_display, st => (rpilcd_init_display st).2
  | Op.clear_display, st => rpilcd_clear_display st
  | Op.set_cursor row col, st => rpilcd_set_cursor row col st
  | Op.put_char ch, st => rpilcd_put_char ch st
  | Op.put_string s, st => (rpilcd_put_string s st).2

/-- The state after a sequence of driver operations, first to last. -/
def run_ops : List Op → State → State
  | [], st => st
  | op :: ops, st => run_ops ops (op.run st)

/-- Decimal value of the first `count` characters of `buf` read as ASCII digits, most
significant first: the sum of `(buf i - '0') * 10 ^ (count - 1 - i)`. -/
def decimal_value (buf : Nat → Int) (count : Nat) : Int :=
  ((List.range count).map (fun i => (buf i - 0x30) * 10 ^ (count - 1 - i))).sum

/-! ## Basic lemmas -/

theorem level_of_bit (b i : Nat) : decide ((b >>> i) &&& 1 ≠ 0) = b.testBit i := by
  unfold Nat.testBit
  rw [Nat.and_comm]
  cases h : (1 &&& b >>> i) <;> simp

theorem level_of_bit_zero (b : Nat) : decide (b &&& 1 ≠ 0) = b.testBit 0 := by
  have h := level_of_bit b 0
  simp at h
  simp [h]

theorem emitted_append (st : State) (p : Pins) (es : List Event) :
    emitted st { pins := p, trace := st.trace ++ es } = es := by
  simp [emitted]

theorem replay_append (p : Pins) (es fs : List Event) :
    replay p (es ++ fs) = replay (replay p es) fs := by
  induction es generalizing p with
  | nil => rfl
  | cons e es ih => cases e <;> simp [replay, ih]

theorem latched_append (p : Pins) (es fs : List Event) :
    latched p (es ++ fs) = latched p es ++ latched (replay p es) fs := by
  induction es generalizing p with
  | nil => rfl
  | cons e es ih =>
    cases e with
    | gpio_set pin v =>
      by_cases h : pin = Pin.LCD_EN ∧ p.en = true ∧ v = 0 <;> simp [latched, replay, ih, h]
    | udelay n => simp [latched, replay, ih]
    | usleep_range a b => simp [latched, replay, ih]

/-- Closed form of `rpilcd_write_byte`: the lines it leaves and the events it logs. -/
theorem write_byte_state (b : Nat) (st : State) :
    rpilcd_write_byte b st =
      { pins := { rs := st.pins.rs, en := false, d4 := b.testBit 0, d5 := b.testBit 1,
                  d6 := b.testBit 2, d7 := b.testBit 3 },
        trace := st.trace ++ write_byte_events b st.pins.rs } := by
  obtain ⟨⟨rs, en, d4, d5, d6, d7⟩, tr⟩ := st
  cases rs <;>
    simp [rpilcd_write_byte, gpio_set_value, gpio_get_value, udelay, usleep_range, Pins.set,
      Pins.get, write_byte_events, settle_event, level_of_bit, level_of_bit_zero]

theorem replay_write_byte_events (p : Pins) (b : Nat) (rs : Bool) :
    replay p (write_byte_events b rs) =
      { rs := p.rs, en := false, d4 := b.testBit 0, d5 := b.testBit 1,
        d6 := b.testBit 2, d7 := b.testBit 3 } := by
  cases rs <;>
    simp [write_byte_events, settle_event, replay, Pins.set, level_of_bit, level_of_bit_zero]

theorem latched_write_byte_events (p : Pins) (b : Nat) (rs : Bool) :
    latched p (write_byte_events b rs) = [high_latch p.rs b, low_latch p.rs b] := by
  cases rs <;>
    simp [write_byte_events, settle_event, latched, Pins.set, Pins.latch, high_latch,
      low_latch, level_of_bit, level_of_bit_zero]

theorem ite_mod_two (n k : Nat) : (if n % 2 = 1 then k else 0) = k * (n % 2) := by
  rcases Nat.mod_two_eq_zero_or_one n with h | h <;> simp [h]

theorem nibbles_of_byte (b : Nat) (hb : b < 256) (r1 r2 : Bool) :
    (high_latch r1 b).nibble * 16 + (low_latch r2 b).nibble = b := by
  simp only [high_latch, low_latch, Latch.nibble, Nat.testBit_to_div_mod, decide_eq_true_eq,
    ite_mod_two]
  norm_num
  omega

theorem to_u8_lt (x : Int) : to_u8 x < 256 := by
  unfold to_u8
  omega

/-! ## Claims -/

/-- C1: for every byte `b` in 0..255 and every initial state, `rpilcd_write_byte b`
logs exactly sixteen events holding exactly two EN pulses (EN written 1, a 1 microsecond
`udelay`, EN written 0); the sample latched at the first pulse has D4..D7 equal to bits
4..7 of `b`, the one at the second pulse has D4..D7 equal to bits 0..3 of `b`, and the
first nibble times 16 plus the second nibble is `b`. -/
theorem write_byte_two_pulses (b : Nat) (hb : b < 256) (st : State) :
    emitted st (rpilcd_write_byte b st) =
      [ Event.gpio_set Pin.LCD_D4 ((b >>> 4) &&& 1),
        Event.gpio_set Pin.LCD_D5 ((b >>> 5) &&& 1),
        Event.gpio_set Pin.LCD_D6 ((b >>> 6) &&& 1),
        Event.gpio_set Pin.LCD_D7 ((b >>> 7) &&& 1),
        Event.gpio_set Pin.LCD_EN 1, Event.udelay 1, Event.gpio_set Pin.LCD_EN 0,
        settle_event st.pins.rs,
        Event.gpio_set Pin.LCD_D4 (b &&& 1),
        Event.gpio_set Pin.LCD_D5 ((b >>> 1) &&& 1),
        Event.gpio_set Pin.LCD_D6 ((b >>> 2) &&& 1),
        Event.gpio_set Pin.LCD_D7 ((b >>> 3) &&& 1),
        Event.gpio_set Pin.LCD_EN 1, Event.udelay 1, Event.gpio_set Pin.LCD_EN 0,
        settle_event st.pins.rs ] ∧
    latched st.pins (emitted st (rpilcd_write_byte b st)) =
      [ { rs := st.pins.rs, d4 := b.testBit 4, d5 := b.testBit 5, d6 := b.testBit 6,
          d7 := b.testBit 7 },
        { rs := st.pins.rs, d4 := b.testBit 0, d5 := b.testBit 1, d6 := b.testBit 2,
          d7 := b.testBit 3 } ] ∧
    pair_bytes (latched st.pins (emitted st (rpilcd_write_byte b st))) = [b] := by
  rw [write_byte_state, emitted_append, latched_write_byte_events]
  refine ⟨rfl, rfl, ?_⟩
  simp [pair_bytes, nibbles_of_byte b hb]

/-- Witness of C1 at the byte 0xA5 from the power-on state. -/
theorem write_byte_two_pulses_witness :
    pair_bytes (latched power_on.pins (emitted power_on (rpilcd_write_byte 0xA5 power_on)))
      = [0xA5] :=
  (write_byte_two_pulses 0xA5 (by decide) power_on).2.2

/-- C2: for every initial state, `rpilcd_init_display` returns 0 and the nibbles latched
during the call are exactly 3, 3, 3, 2 followed by the high and low nibbles of 0x28,
0x08, 0x01, 0x06, 0x0C: fourteen EN pulses, nothing before, between or after. -/
theorem init_display_sequence (st : State) :
    (rpilcd_init_display st).1 = 0 ∧
    (latched st.pins (emitted st (rpilcd_init_display st).2)).map Latch.nibble =
      [3, 3, 3, 2, 2, 8, 0, 8, 0, 1, 0, 6, 0, 12] ∧
    (latched st.pins (emitted st (rpilcd_init_display st).2)).length = 14 ∧
    pair_bytes ((latched st.pins (emitted st (rpilcd_init_display st).2)).drop 4) =
      [0x28, 0x08, 0x01, 0x06, 0x0C] := by
  obtain ⟨⟨rs, en, d4, d5, d6, d7⟩, tr⟩ := st
  simp only [rpilcd_init_display, write_byte_state]
  cases rs <;>
    simp [emitted, gpio_set_value, udelay, usleep_range, Pins.set, write_byte_events,
      settle_event, latched, Pins.latch, Latch.nibble, pair_bytes]

/-- Closed form of `rpilcd_set_cursor`: RS is written 0, then the command byte is sent. -/
theorem set_cursor_state (row col : Nat) (st : State) :
    rpilcd_set_cursor row col st =
      { pins := { rs := false, en := false,
                  d4 := (set_cursor_command row col).testBit 0,
                  d5 := (set_cursor_command row col).testBit 1,
                  d6 := (set_cursor_command row col).testBit 2,
                  d7 := (set_cursor_command row col).testBit 3 },
        trace := st.trace ++
          (Event.gpio_set Pin.LCD_RS 0 :: write_byte_events (set_cursor_command row col) false) } := by
  simp [rpilcd_set_cursor, write_byte_state, gpio_set_value, Pins.set]

theorem latched_rs_write (p : Pins) (v : Nat) (es : List Event) :
    latched p (Event.gpio_set Pin.LCD_RS v :: es) = latched (p.set Pin.LCD_RS v) es := by
  simp [latched]

theorem latched_set_cursor (row col : Nat) (st : State) :
    latched st.pins (emitted st (rpilcd_set_cursor row col st)) =
      [high_latch false (set_cursor_command row col),
       low_latch false (set_cursor_command row col)] := by
  rw [set_cursor_state, emitted_append, latched_rs_write, latched_write_byte_events]
  simp [Pins.set]

theorem set_cursor_command_lt (row col : Nat) : set_cursor_command row col < 256 := by
  unfold set_cursor_command
  split
  · exact to_u8_lt _
  · exact to_u8_lt _
  · decide

/-- C3: for every column `c` with 1 <= c <= 64, `rpilcd_set_cursor 1 c` writes RS low and
then sends the single byte `0x80 + (c - 1)`, and `rpilcd_set_cursor 2 c` writes RS low and
then sends the single byte `0x80 + 0x40 + (c - 1)`; both nibbles are latched with RS low
and the low seven bits of the byte are `c - 1` and `0x40 + c - 1`. -/
theorem set_cursor_valid_columns (c : Nat) (h1 : 1 ≤ c) (h64 : c ≤ 64) (st : State) :
    rpilcd_set_cursor 1 c st =
        rpilcd_write_byte (0x80 + (c - 1)) (gpio_set_value Pin.LCD_RS 0 st) ∧
    rpilcd_set_cursor 2 c st =
        rpilcd_write_byte (0x80 + 0x40 + (c - 1)) (gpio_set_value Pin.LCD_RS 0 st) ∧
    latched st.pins (emitted st (rpilcd_set_cursor 1 c st)) =
        [high_latch false (0x80 + (c - 1)), low_latch false (0x80 + (c - 1))] ∧
    latched st.pins (emitted st (rpilcd_set_cursor 2 c st)) =
        [high_latch false (0x80 + 0x40 + (c - 1)), low_latch false (0x80 + 0x40 + (c - 1))] ∧
    pair_bytes (latched st.pins (emitted st (rpilcd_set_cursor 1 c st))) = [0x80 + (c - 1)] ∧
    pair_bytes (latched st.pins (emitted st (rpilcd_set_cursor 2 c st))) =
        [0x80 + 0x40 + (c - 1)] ∧
    set_cursor_command 1 c % 0x80 = c - 1 ∧
    set_cursor_command 2 c % 0x80 = 0x40 + c - 1 := by
  have e1 : set_cursor_command 1 c = 0x80 + (c - 1) := by
    simp only [set_cursor_command, to_u8]
    omega
  have e2 : set_cursor_command 2 c = 0x80 + 0x40 + (c - 1) := by
    simp only [set_cursor_command, to_u8]
    omega
  have b1 := nibbles_of_byte (0x80 + (c - 1)) (by omega) false false
  have b2 := nibbles_of_byte (0x80 + 0x40 + (c - 1)) (by omega) false false
  refine ⟨?_, ?_, ?_, ?_, ?_, ?_, ?_, ?_⟩
  · simp only [rpilcd_set_cursor, e1]
  · simp only [rpilcd_set_cursor, e2]
  · rw [latched_set_cursor, e1]
  · rw [latched_set_cursor, e2]
  · rw [latched_set_cursor, e1]
    simp only [pair_bytes, b1]
  · rw [latched_set_cursor, e2]
    simp only [pair_bytes, b2]
  · rw [e1]
    omega
  · rw [e2]
    omega

/-- Witness of C3 at column 5 from the power-on state. -/
theorem set_cursor_valid_columns_witness :
    pair_bytes (latched power_on.pins (emitted power_on (rpilcd_set_cursor 1 5 power_on)))
        = [0x84] ∧
    pair_bytes (latched power_on.pins (emitted power_on (rpilcd_set_cursor 2 5 power_on)))
        = [0xC4] :=
  ⟨(set_cursor_valid_columns 5 (by decide) (by decide) power_on).2.2.2.2.1,
   (set_cursor_valid_columns 5 (by decide) (by decide) power_on).2.2.2.2.2.1⟩

theorem or_high_bit : ∀ a < 128, 0x80 ||| a = 0x80 + a := by
  decide

set_option maxRecDepth 4000 in
theorem or_high_bit_wrap : ∀ a < 256, 128 ≤ a → (0x80 + a) % 256 ≠ 0x80 ||| a := by
  decide

theorem test_bit_seven (n : Nat) (hn : n < 256) : n.testBit 7 = true ↔ 0x80 ≤ n := by
  rw [Nat.testBit_to_div_mod, decide_eq_true_eq]
  omega

theorem set_cursor_command_eq (row col : Nat) :
    set_cursor_command row col = (0x80 + spec_map row col) % 256 := by
  unfold set_cursor_command spec_map
  split
  · simp only [to_u8]
    omega
  · simp only [to_u8]
    omega
  · rfl

theorem spec_map_lt (row col : Nat) : spec_map row col < 256 := by
  unfold spec_map
  split
  · exact to_u8_lt _
  · exact to_u8_lt _
  · decide

/-- C4, counterexample: `rpilcd_set_cursor 1 130` sends the byte 0x01, not
`0x80 | address` (0x81); bit 7 of the byte is clear and the call is, event for event, the
clear-display command. -/
theorem set_cursor_wraps_counterexample :
    spec_map 1 130 = 0x81 ∧
    set_cursor_command 1 130 = 0x01 ∧
    set_cursor_command 1 130 ≠ 0x80 ||| spec_map 1 130 ∧
    (set_cursor_command 1 130).testBit 7 = false ∧
    pair_bytes (latched power_on.pins (emitted power_on (rpilcd_set_cursor 1 130 power_on)))
      = [0x01] ∧
    rpilcd_set_cursor 1 130 power_on = rpilcd_clear_display power_on := by
  decide

/-- C4, amended: for every row and column the byte `rpilcd_set_cursor` sends is
`(0x80 + address) mod 256`, where `address` is the 8-bit result of the address mapping;
it equals `0x80 | address`, and has bit 7 set, exactly when `address < 0x80`. -/
theorem set_cursor_byte_mod (row col : Nat) (st : State) :
    rpilcd_set_cursor row col st =
      rpilcd_write_byte ((0x80 + spec_map row col) % 256) (gpio_set_value Pin.LCD_RS 0 st) ∧
    pair_bytes (latched st.pins (emitted st (rpilcd_set_cursor row col st))) =
      [(0x80 + spec_map row col) % 256] ∧
    (set_cursor_command row col = 0x80 ||| spec_map row col ↔ spec_map row col < 0x80) ∧
    ((set_cursor_command row col).testBit 7 = true ↔ spec_map row col < 0x80) := by
  have hm := spec_map_lt row col
  have hc := set_cursor_command_eq row col
  have hlt := set_cursor_command_lt row col
  refine ⟨?_, ?_, ?_, ?_⟩
  · simp only [rpilcd_set_cursor, hc]
  · rw [latched_set_cursor]
    simp only [pair_bytes, nibbles_of_byte _ hlt]
    rw [hc]
  · constructor
    · intro h
      by_contra hge
      exact or_high_bit_wrap _ hm (by omega) (hc ▸ h)
    · intro h
      rw [or_high_bit _ h, hc]
      omega
  · rw [test_bit_seven _ hlt, hc]
    omega

/-- C5: for every row other than 1 and 2 and every column, `rpilcd_set_cursor` writes RS
low and then sends exactly the byte 0x80, whatever the column; the function has no result
through which an error could be reported. -/
theorem set_cursor_other_rows (row col : Nat) (h1 : row ≠ 1) (h2 : row ≠ 2) (st : State) :
    rpilcd_set_cursor row col st = rpilcd_write_byte 0x80 (gpio_set_value Pin.LCD_RS 0 st) ∧
    emitted st (rpilcd_set_cursor row col st) =
      [ Event.gpio_set Pin.LCD_RS 0,
        Event.gpio_set Pin.LCD_D4 0, Event.gpio_set Pin.LCD_D5 0,
        Event.gpio_set Pin.LCD_D6 0, Event.gpio_set Pin.LCD_D7 1,
        Event.gpio_set Pin.LCD_EN 1, Event.udelay 1, Event.gpio_set Pin.LCD_EN 0,
        Event.usleep_range 4500 5500,
        Event.gpio_set Pin.LCD_D4 0, Event.gpio_set Pin.LCD_D5 0,
        Event.gpio_set Pin.LCD_D6 0, Event.gpio_set Pin.LCD_D7 0,
        Event.gpio_set Pin.LCD_EN 1, Event.udelay 1, Event.gpio_set Pin.LCD_EN 0,
        Event.usleep_range 4500 5500 ] ∧
    latched st.pins (emitted st (rpilcd_set_cursor row col st)) =
      [ { rs := false, d4 := false, d5 := false, d6 := false, d7 := true },
        { rs := false, d4 := false, d5 := false, d6 := false, d7 := false } ] ∧
    pair_bytes (latched st.pins (emitted st (rpilcd_set_cursor row col st))) = [0x80] := by
  have hc : set_cursor_command row col = 0x80 := by
    unfold set_cursor_command
    split
    · exact absurd rfl h1
    · exact absurd rfl h2
    · rfl
  refine ⟨?_, ?_, ?_, ?_⟩
  · simp only [rpilcd_set_cursor, hc]
  · rw [set_cursor_state, emitted_append, hc]
    decide
  · rw [latched_set_cursor, hc]
    decide
  · rw [latched_set_cursor, hc]
    decide

/-- Witness of C5 at row 0, column 7 from the power-on state. -/
theorem set_cursor_other_rows_witness :
    pair_bytes (latched power_on.pins (emitted power_on (rpilcd_set_cursor 0 7 power_on)))
      = [0x80] :=
  (set_cursor_other_rows 0 7 (by decide) (by decide) power_on).2.2.2

/-- C6: `rpilcd_put_string` returns -1 exactly when its argument is the null pointer,
and then leaves the state (lines and log) untouched; for the empty string it returns 0
and its whole effect is RS written 1 then RS written 0, with no EN pulse. -/
theorem put_string_null_and_empty (st : State) :
    (∀ s : Option (List Int), (rpilcd_put_string s st).1 = -1 ↔ s = none) ∧
    rpilcd_put_string none st = (-1, st) ∧
    rpilcd_put_string (some []) st =
      (0, { pins := { st.pins with rs := false },
            trace := st.trace ++
              [Event.gpio_set Pin.LCD_RS 1, Event.gpio_set Pin.LCD_RS 0] }) ∧
    (∀ rest : List Int,
      rpilcd_put_string (some (0 :: rest)) st = rpilcd_put_string (some []) st) ∧
    emitted st (rpilcd_put_string (some []) st).2 =
      [Event.gpio_set Pin.LCD_RS 1, Event.gpio_set Pin.LCD_RS 0] ∧
    latched st.pins (emitted st (rpilcd_put_string (some []) st).2) = [] := by
  refine ⟨?_, rfl, ?_, ?_, ?_, ?_⟩
  · intro s
    cases s <;> simp [rpilcd_put_string]
  · simp [rpilcd_put_string, put_string_loop, gpio_set_value, Pins.set]
  · intro rest
    simp [rpilcd_put_string, put_string_loop]
  · simp [rpilcd_put_string, put_string_loop, gpio_set_value, emitted]
  · simp [rpilcd_put_string, put_string_loop, gpio_set_value, emitted, latched]

/-- Closed form of the character loop while RS is high and no character is NUL. -/
theorem put_string_loop_state (s : List Int) (hs : ∀ c ∈ s, c ≠ 0) (st : State)
    (hrs : st.pins.rs = true) :
    put_string_loop s st =
      { pins := replay st.pins (string_events s), trace := st.trace ++ string_events s } := by
  induction s generalizing st with
  | nil => simp [put_string_loop, string_events, replay]
  | cons c rest ih =>
    have hc : c ≠ 0 := hs c (List.mem_cons_self c rest)
    have hrest : ∀ d ∈ rest, d ≠ 0 := fun d hd => hs d (List.mem_cons_of_mem c hd)
    have hrs2 : (rpilcd_write_byte (to_u8 c) st).pins.rs = true := by
      rw [write_byte_state]
      exact hrs
    rw [put_string_loop, if_pos hc, ih hrest _ hrs2, write_byte_state, hrs]
    simp [string_events, replay_append, replay_write_byte_events, hrs]

theorem replay_string_events_rs (s : List Int) (p : Pins) (h : p.rs = true) :
    (replay p (string_events s)).rs = true := by
  induction s generalizing p with
  | nil => simpa [string_events, replay] using h
  | cons c rest ih =>
    have e : string_events (c :: rest) =
        write_byte_events (to_u8 c) true ++ string_events rest := by
      simp [string_events]
    rw [e, replay_append]
    apply ih
    rw [replay_write_byte_events]
    exact h

theorem latched_string_events (s : List Int) (p : Pins) (h : p.rs = true) :
    latched p (string_events s) = string_latches s := by
  induction s generalizing p with
  | nil => simp [string_events, string_latches, latched]
  | cons c rest ih =>
    have e : string_events (c :: rest) =
        write_byte_events (to_u8 c) true ++ string_events rest := by
      simp [string_events]
    have hp : (replay p (write_byte_events (to_u8 c) true)).rs = true := by
      rw [replay_write_byte_events]
      exact h
    rw [e, latched_append, latched_write_byte_events, ih _ hp, h]
    simp [string_latches]

theorem pair_bytes_string_latches (s : List Int) :
    pair_bytes (string_latches s) = s.map to_u8 := by
  induction s with
  | nil => simp [string_latches, pair_bytes]
  | cons c rest ih =>
    have e : string_latches (c :: rest) =
        high_latch true (to_u8 c) :: low_latch true (to_u8 c) :: string_latches rest := by
      simp [string_latches]
    rw [e, pair_bytes, ih, nibbles_of_byte _ (to_u8_lt c)]
    simp

theorem length_string_latches (s : List Int) : (string_latches s).length = 2 * s.length := by
  induction s with
  | nil => simp [string_latches]
  | cons c rest ih =>
    have e : string_latches (c :: rest) =
        high_latch true (to_u8 c) :: low_latch true (to_u8 c) :: string_latches rest := by
      simp [string_latches]
    rw [e, List.length_cons, List.length_cons, ih, List.length_cons]
    omega

theorem rs_string_latches (s : List Int) : ∀ l ∈ string_latches s, l.rs = true := by
  intro l hl
  simp only [string_latches, List.mem_flatMap] at hl
  obtain ⟨c, _, hc⟩ := hl
  simp only [List.mem_cons, List.mem_singleton, List.not_mem_nil, or_false] at hc
  rcases hc with h | h <;> simp [h, high_latch, low_latch]

theorem count_writes_append (pin : Pin) (es fs : List Event) :
    count_writes pin (es ++ fs) = count_writes pin es + count_writes pin fs := by
  induction es with
  | nil => simp [count_writes]
  | cons e es ih =>
    cases e <;> simp [count_writes, ih]
    omega

theorem count_rs_write_byte_events (b : Nat) (rs : Bool) :
    count_writes Pin.LCD_RS (write_byte_events b rs) = 0 := by
  cases rs <;> simp [write_byte_events, settle_event, count_writes]

theorem count_rs_string_events (s : List Int) :
    count_writes Pin.LCD_RS (string_events s) = 0 := by
  induction s with
  | nil => simp [string_events, count_writes]
  | cons c rest ih =>
    have e : string_events (c :: rest) =
        write_byte_events (to_u8 c) true ++ string_events rest := by
      simp [string_events]
    rw [e, count_writes_append, count_rs_write_byte_events, ih]

/-- Closed form of `rpilcd_put_string` on a string without NUL characters. -/
theorem put_string_state (s : List Int) (hs : ∀ c ∈ s, c ≠ 0) (st : State) :
    rpilcd_put_string (some s) st =
      (0, { pins := (replay (st.pins.set Pin.LCD_RS 1) (string_events s)).set Pin.LCD_RS 0,
            trace := st.trace ++
              (Event.gpio_set Pin.LCD_RS 1 ::
                (string_events s ++ [Event.gpio_set Pin.LCD_RS 0])) }) := by
  have hrs : (gpio_set_value Pin.LCD_RS 1 st).pins.rs = true := by
    simp [gpio_set_value, Pins.set]
  simp only [rpilcd_put_string]
  rw [put_string_loop_state s hs _ hrs]
  simp [gpio_set_value]

/-- C7: for every string `s` of non-zero characters (signed or unsigned `char` values),
`rpilcd_put_string` returns 0, logs RS written 1, then the events of one byte write for
each character in order, then RS written 0; RS is written exactly twice, there are
exactly `2 * length s` EN pulses, all latched with RS high, and pairing the latched
nibbles gives the bytes of `s` in order.  `rpilcd_put_char c` produces the same state
and log as `rpilcd_put_string` of the one-character string, for every `c` other than 0. -/
theorem put_string_round_trip (s : List Int)
    (hs : ∀ c ∈ s, c ≠ 0 ∧ -128 ≤ c ∧ c ≤ 255) (st : State) :
    (rpilcd_put_string (some s) st).1 = 0 ∧
    emitted st (rpilcd_put_string (some s) st).2 =
      Event.gpio_set Pin.LCD_RS 1 ::
        (s.flatMap (fun c => write_byte_events (to_u8 c) true) ++
          [Event.gpio_set Pin.LCD_RS 0]) ∧
    count_writes Pin.LCD_RS (emitted st (rpilcd_put_string (some s) st).2) = 2 ∧
    latched st.pins (emitted st (rpilcd_put_string (some s) st).2) =
      s.flatMap (fun c => [high_latch true (to_u8 c), low_latch true (to_u8 c)]) ∧
    (latched st.pins (emitted st (rpilcd_put_string (some s) st).2)).length =
      2 * s.length ∧
    (∀ l ∈ latched st.pins (emitted st (rpilcd_put_string (some s) st).2), l.rs = true) ∧
    pair_bytes (latched st.pins (emitted st (rpilcd_put_string (some s) st).2)) =
      s.map to_u8 ∧
    (∀ c ∈ s, (0 < c → to_u8 c = c) ∧ (c < 0 → to_u8 c = c + 256)) ∧
    (∀ c : Int, c ≠ 0 → rpilcd_put_char c st = (rpilcd_put_string (some [c]) st).2) := by
  have hs0 : ∀ c ∈ s, c ≠ 0 := fun c hc => (hs c hc).1
  have hlat : latched st.pins (emitted st (rpilcd_put_string (some s) st).2) =
      string_latches s := by
    rw [put_string_state s hs0, emitted_append, latched_rs_write, latched_append,
      latched_string_events _ _ (by simp [Pins.set])]
    simp [latched]
  refine ⟨?_, ?_, ?_, hlat, ?_, ?_, ?_, ?_, ?_⟩
  · rw [put_string_state s hs0]
  · rw [put_string_state s hs0, emitted_append]
    rfl
  · rw [put_string_state s hs0, emitted_append]
    simp [count_writes, count_writes_append, count_rs_string_events]
  · rw [hlat, length_string_latches]
  · rw [hlat]
    exact rs_string_latches s
  · rw [hlat, pair_bytes_string_latches]
  · intro c hc
    obtain ⟨_, hlo, hhi⟩ := hs c hc
    simp only [to_u8]
    omega
  · intro c hc
    simp [rpilcd_put_char, rpilcd_put_string, put_string_loop, hc]

/-- Witness of C7 on the two characters -1 (0xFF as a signed `char`) and 'A'. -/
theorem put_string_round_trip_witness :
    pair_bytes (latched power_on.pins
      (emitted power_on (rpilcd_put_string (some [-1, 0x41]) power_on).2)) =
        [-1, 0x41].map to_u8 :=
  (put_string_round_trip [-1, 0x41] (by decide) power_on).2.2.2.2.2.2.1

/-- Closed form of `rpilcd_put_char`. -/
theorem put_char_state (c : Int) (st : State) :
    rpilcd_put_char c st =
      { pins := { rs := false, en := false, d4 := (to_u8 c).testBit 0,
                  d5 := (to_u8 c).testBit 1, d6 := (to_u8 c).testBit 2,
                  d7 := (to_u8 c).testBit 3 },
        trace := st.trace ++
          (Event.gpio_set Pin.LCD_RS 1 ::
            (write_byte_events (to_u8 c) true ++ [Event.gpio_set Pin.LCD_RS 0])) } := by
  simp [rpilcd_put_char, write_byte_state, gpio_set_value, Pins.set]

theorem latched_put_char_events (c : Int) (p : Pins) :
    latched p (Event.gpio_set Pin.LCD_RS 1 ::
      (write_byte_events (to_u8 c) true ++ [Event.gpio_set Pin.LCD_RS 0])) =
      [high_latch true (to_u8 c), low_latch true (to_u8 c)] := by
  rw [latched_rs_write, latched_append, latched_write_byte_events]
  simp [latched, Pins.set]

theorem replay_set_cursor_events (p : Pins) (b : Nat) :
    (replay p (Event.gpio_set Pin.LCD_RS 0 :: write_byte_events b false)).rs = false := by
  rw [replay, replay_write_byte_events]
  simp [Pins.set]

/-- C8: for every initial state, row `r` in {1, 2}, column `c` in 1..64 and character `ch`,
`rpilcd_set_cursor r c` followed by `rpilcd_put_char ch` latches exactly four nibbles: the
high and low nibble of `0x80 + (r = 2 ? 0x40 : 0) + (c - 1)` with RS low, then the high and
low nibble of `ch` with RS high; RS is low afterwards.  For (2, 5, 'A') the bytes are
0xC4 then 0x41. -/
theorem set_cursor_then_put_char (r c : Nat) (ch : Int) (hr : r = 1 ∨ r = 2)
    (h1 : 1 ≤ c) (h64 : c ≤ 64) (st : State) :
    latched st.pins (emitted st (rpilcd_put_char ch (rpilcd_set_cursor r c st))) =
      [ high_latch false (0x80 + (if r = 2 then 0x40 else 0) + (c - 1)),
        low_latch false (0x80 + (if r = 2 then 0x40 else 0) + (c - 1)),
        high_latch true (to_u8 ch),
        low_latch true (to_u8 ch) ] ∧
    pair_bytes (latched st.pins (emitted st (rpilcd_put_char ch (rpilcd_set_cursor r c st)))) =
      [0x80 + (if r = 2 then 0x40 else 0) + (c - 1), to_u8 ch] ∧
    (rpilcd_put_char ch (rpilcd_set_cursor r c st)).pins.rs = false ∧
    pair_bytes (latched st.pins
      (emitted st (rpilcd_put_char 0x41 (rpilcd_set_cursor 2 5 st)))) = [0xC4, 0x41] := by
  have key : ∀ (r2 c2 : Nat) (ch2 : Int),
      latched st.pins (emitted st (rpilcd_put_char ch2 (rpilcd_set_cursor r2 c2 st))) =
        [ high_latch false (set_cursor_command r2 c2), low_latch false (set_cursor_command r2 c2),
          high_latch true (to_u8 ch2), low_latch true (to_u8 ch2) ] := by
    intro r2 c2 ch2
    have hrs : (st.pins.set Pin.LCD_RS 0).rs = false := by simp [Pins.set]
    rw [put_char_state, set_cursor_state]
    simp only [List.append_assoc]
    rw [emitted_append, latched_append, latched_rs_write, latched_write_byte_events,
      latched_put_char_events, hrs]
    rfl
  have hcmd : set_cursor_command r c = 0x80 + (if r = 2 then 0x40 else 0) + (c - 1) := by
    rcases hr with h | h <;> subst h <;> simp only [set_cursor_command, to_u8] <;>
      norm_num <;> omega
  have hb := nibbles_of_byte _ (set_cursor_command_lt r c) false false
  have hch := nibbles_of_byte _ (to_u8_lt ch) true true
  refine ⟨?_, ?_, ?_, ?_⟩
  · rw [key, hcmd]
  · rw [key]
    simp only [pair_bytes, hb, hch]
    rw [hcmd]
  · rw [put_char_state]
  · rw [key]
    decide

/-- Witness of C8 at row 2, column 5, character 'A' from the power-on state. -/
theorem set_cursor_then_put_char_witness :
    pair_bytes (latched power_on.pins
      (emitted power_on (rpilcd_put_char 0x41 (rpilcd_set_cursor 2 5 power_on)))) =
        [0x80 + (if 2 = 2 then 0x40 else 0) + (5 - 1), to_u8 0x41] :=
  (set_cursor_then_put_char 2 5 0x41 (Or.inr rfl) (by decide) (by decide) power_on).2.1

theorem settle_waits_write_byte_events (b : Nat) (rs : Bool) (fs : List Event) :
    settle_waits (write_byte_events b rs ++ fs) =
      settle_event rs :: settle_event rs :: settle_waits fs := by
  cases rs <;> simp [write_byte_events, settle_event, settle_waits]

theorem settle_waits_rs_write (v : Nat) (es : List Event) :
    settle_waits (Event.gpio_set Pin.LCD_RS v :: es) = settle_waits es := by
  simp [settle_waits]

theorem settle_waits_string_events (s : List Int) (fs : List Event) :
    settle_waits (string_events s ++ fs) =
      List.replicate (2 * s.length) (Event.udelay 200) ++ settle_waits fs := by
  induction s with
  | nil => simp [string_events]
  | cons c rest ih =>
    have e : string_events (c :: rest) =
        write_byte_events (to_u8 c) true ++ string_events rest := by
      simp [string_events]
    have hlen : 2 * (c :: rest).length = 2 * rest.length + 1 + 1 := by
      rw [List.length_cons]
      omega
    rw [e, List.append_assoc, settle_waits_write_byte_events, ih, hlen,
      List.replicate_succ, List.replicate_succ]
    simp [settle_event]

/-- C9, counterexample: the two waits of `rpilcd_put_char 'A'` are the short 200
microsecond ones and the two waits of `rpilcd_set_cursor 1 1` are the long
4500..5500 microsecond ones, the reverse of the claim. -/
theorem delay_asymmetry_counterexample :
    settle_waits (emitted power_on (rpilcd_put_char 0x41 power_on)) =
      [Event.udelay 200, Event.udelay 200] ∧
    settle_waits (emitted power_on (rpilcd_set_cursor 1 1 power_on)) =
      [Event.usleep_range 4500 5500, Event.usleep_range 4500 5500] ∧
    settle_waits (emitted power_on (rpilcd_put_string (some [0x41]) power_on).2) =
      [Event.udelay 200, Event.udelay 200] := by
  decide

/-- C9, amended: in `rpilcd_write_byte` the wait after each EN pulse is the short one
(200 microseconds) when RS reads high and the long one (4500 to 5500 microseconds) when
RS reads low; so every nibble sent by `rpilcd_put_char` and `rpilcd_put_string` is
followed by the short wait and every nibble sent by `rpilcd_set_cursor` by the long one. -/
theorem delay_by_rs_level (b : Nat) (c : Int) (row col : Nat) (s : List Int)
    (hs : ∀ d ∈ s, d ≠ 0) (st : State) :
    settle_waits (emitted st (rpilcd_write_byte b st)) =
      [ (if st.pins.rs then Event.udelay 200 else Event.usleep_range 4500 5500),
        (if st.pins.rs then Event.udelay 200 else Event.usleep_range 4500 5500) ] ∧
    settle_waits (emitted st (rpilcd_put_char c st)) =
      [Event.udelay 200, Event.udelay 200] ∧
    settle_waits (emitted st (rpilcd_put_string (some s) st).2) =
      List.replicate (2 * s.length) (Event.udelay 200) ∧
    settle_waits (emitted st (rpilcd_set_cursor row col st)) =
      [Event.usleep_range 4500 5500, Event.usleep_range 4500 5500] := by
  refine ⟨?_, ?_, ?_, ?_⟩
  · have h := settle_waits_write_byte_events b st.pins.rs []
    rw [List.append_nil] at h
    rw [write_byte_state, emitted_append, h]
    simp [settle_event, settle_waits]
  · rw [put_char_state, emitted_append, settle_waits_rs_write,
      settle_waits_write_byte_events]
    simp [settle_event, settle_waits]
  · rw [put_string_state s hs, emitted_append, settle_waits_rs_write,
      settle_waits_string_events]
    simp [settle_waits]
  · have h := settle_waits_write_byte_events (set_cursor_command row col) false []
    rw [List.append_nil] at h
    rw [set_cursor_state, emitted_append, settle_waits_rs_write, h]
    simp [settle_event, settle_waits]

/-- Witness of the amended C9 on the string "AB" from the power-on state. -/
theorem delay_by_rs_level_witness :
    settle_waits (emitted power_on (rpilcd_put_string (some [0x41, 0x42]) power_on).2) =
      List.replicate (2 * [(0x41 : Int), 0x42].length) (Event.udelay 200) :=
  (delay_by_rs_level 0 0 0 0 [0x41, 0x42] (by decide) power_on).2.2.1

/-- Closed form of `rpilcd_clear_display`. -/
theorem clear_display_state (st : State) :
    rpilcd_clear_display st =
      { pins := { rs := false, en := false, d4 := true, d5 := false, d6 := false,
                  d7 := false },
        trace := st.trace ++
          [ Event.gpio_set Pin.LCD_RS 0,
            Event.gpio_set Pin.LCD_D4 0, Event.gpio_set Pin.LCD_D5 0,
            Event.gpio_set Pin.LCD_D6 0, Event.gpio_set Pin.LCD_D7 0,
            Event.gpio_set Pin.LCD_EN 1, Event.udelay 1, Event.gpio_set Pin.LCD_EN 0,
            Event.usleep_range 4500 5500,
            Event.gpio_set Pin.LCD_D4 1, Event.gpio_set Pin.LCD_D5 0,
            Event.gpio_set Pin.LCD_D6 0, Event.gpio_set Pin.LCD_D7 0,
            Event.gpio_set Pin.LCD_EN 1, Event.udelay 1, Event.gpio_set Pin.LCD_EN 0,
            Event.usleep_range 4500 5500 ] } := by
  simp [rpilcd_clear_display, write_byte_state, gpio_set_value, Pins.set, write_byte_events,
    settle_event]
  decide

/-- C10: the events `rpilcd_clear_display` logs are the same for every initial state: RS
written 0, then nibble 0x0 latched, then nibble 0x1 latched (byte 0x01, RS low), each
latch followed by the 4500..5500 microsecond wait; a second call logs the same events
as the first. -/
theorem clear_display_trace (st : State) :
    emitted st (rpilcd_clear_display st) =
      [ Event.gpio_set Pin.LCD_RS 0,
        Event.gpio_set Pin.LCD_D4 0, Event.gpio_set Pin.LCD_D5 0,
        Event.gpio_set Pin.LCD_D6 0, Event.gpio_set Pin.LCD_D7 0,
        Event.gpio_set Pin.LCD_EN 1, Event.udelay 1, Event.gpio_set Pin.LCD_EN 0,
        Event.usleep_range 4500 5500,
        Event.gpio_set Pin.LCD_D4 1, Event.gpio_set Pin.LCD_D5 0,
        Event.gpio_set Pin.LCD_D6 0, Event.gpio_set Pin.LCD_D7 0,
        Event.gpio_set Pin.LCD_EN 1, Event.udelay 1, Event.gpio_set Pin.LCD_EN 0,
        Event.usleep_range 4500 5500 ] ∧
    latched st.pins (emitted st (rpilcd_clear_display st)) =
      [ { rs := false, d4 := false, d5 := false, d6 := false, d7 := false },
        { rs := false, d4 := true, d5 := false, d6 := false, d7 := false } ] ∧
    (latched st.pins (emitted st (rpilcd_clear_display st))).map Latch.nibble = [0x0, 0x1] ∧
    pair_bytes (latched st.pins (emitted st (rpilcd_clear_display st))) = [0x01] ∧
    settle_waits (emitted st (rpilcd_clear_display st)) =
      [Event.usleep_range 4500 5500, Event.usleep_range 4500 5500] ∧
    emitted (rpilcd_clear_display st) (rpilcd_clear_display (rpilcd_clear_display st)) =
      emitted st (rpilcd_clear_display st) ∧
    (∀ st2 : State,
      emitted st2 (rpilcd_clear_display st2) = emitted st (rpilcd_clear_display st)) := by
  have hl : latched st.pins (emitted st (rpilcd_clear_display st)) =
      [ { rs := false, d4 := false, d5 := false, d6 := false, d7 := false },
        { rs := false, d4 := true, d5 := false, d6 := false, d7 := false } ] := by
    rw [clear_display_state, emitted_append]
    simp [latched, Pins.set, Pins.latch]
  refine ⟨?_, hl, ?_, ?_, ?_, ?_, ?_⟩
  · rw [clear_display_state, emitted_append]
  · rw [hl]
    decide
  · rw [hl]
    decide
  · rw [clear_display_state, emitted_append]
    decide
  · rw [clear_display_state (rpilcd_clear_display st), emitted_append, clear_display_state,
      emitted_append]
  · intro st2
    rw [clear_display_state, emitted_append, clear_display_state, emitted_append]

/-- Closed form of `rpilcd_init_display`: the lines it leaves and the events it logs. -/
theorem init_display_state (st : State) :
    rpilcd_init_display st =
      (0, { pins := { rs := st.pins.rs, en := false, d4 := false, d5 := false, d6 := true,
                      d7 := true },
            trace := st.trace ++ init_display_events st.pins.rs }) := by
  obtain ⟨⟨rs, en, d4, d5, d6, d7⟩, tr⟩ := st
  simp only [rpilcd_init_display, write_byte_state]
  cases rs <;>
    simp [gpio_set_value, udelay, usleep_range, Pins.set, init_display_events,
      write_byte_events, settle_event] <;>
    decide

theorem latched_init_display_events (p : Pins) (rs : Bool) :
    latched p (init_display_events rs) =
      [ { rs := p.rs, d4 := true, d5 := true, d6 := false, d7 := false },
        { rs := p.rs, d4 := true, d5 := true, d6 := false, d7 := false },
        { rs := p.rs, d4 := true, d5 := true, d6 := false, d7 := false },
        { rs := p.rs, d4 := false, d5 := true, d6 := false, d7 := false },
        high_latch p.rs 0x28, low_latch p.rs 0x28,
        high_latch p.rs 0x08, low_latch p.rs 0x08,
        high_latch p.rs 0x01, low_latch p.rs 0x01,
        high_latch p.rs 0x06, low_latch p.rs 0x06,
        high_latch p.rs 0x0C, low_latch p.rs 0x0C ] := by
  obtain ⟨prs, en, d4, d5, d6, d7⟩ := p
  cases rs <;>
    simp [init_display_events, write_byte_events, settle_event, latched, Pins.set,
      Pins.latch, high_latch, low_latch] <;>
    decide

/-- C11: for every initial state the last byte `rpilcd_init_display` sends is 0x0C: a
display-control command (bit 3 set, bits 7..4 clear) whose D bit (bit 2) is 1, whose
C bit (bit 1) is 0 and whose B bit (bit 0) is 0, that is display on, cursor off, blink
off. -/
theorem init_display_last_byte (st : State) :
    (pair_bytes ((latched st.pins (emitted st (rpilcd_init_display st).2)).drop 4)).getLast?
      = some 0x0C ∧
    ((pair_bytes ((latched st.pins (emitted st (rpilcd_init_display st).2)).drop 4)).getLast?).map
      (fun b => (b / 16, b.testBit 3, b.testBit 2, b.testBit 1, b.testBit 0))
      = some (0, true, true, false, false) := by
  rw [init_display_state, emitted_append, latched_init_display_events]
  generalize st.pins.rs = r
  cases r <;> decide

/-- C12: counting the guaranteed minimum of each delay call in `rpilcd_init_display`, at
least 15000 microseconds pass before the first EN pulse, at least 4100 between the first
and second 0b0011 pulse, at least 100 between the second and third, and at least 4100
between the 0b0010 pulse and the first pulse of byte 0x28; every one of the fourteen EN
pulses is held high for at least 1 microsecond. -/
theorem init_display_timing (st : State) :
    (rise_gaps 0 (emitted st (rpilcd_init_display st).2)).take 5 =
      [15000, 4200, 200, 200, 4200] ∧
    ((latched st.pins (emitted st (rpilcd_init_display st).2)).map Latch.nibble).take 5 =
      [3, 3, 3, 2, 2] ∧
    hold_times 0 (emitted st (rpilcd_init_display st).2) = List.replicate 14 1 ∧
    15000 ≤ (rise_gaps 0 (emitted st (rpilcd_init_display st).2)).getD 0 0 ∧
    4100 ≤ (rise_gaps 0 (emitted st (rpilcd_init_display st).2)).getD 1 0 ∧
    100 ≤ (rise_gaps 0 (emitted st (rpilcd_init_display st).2)).getD 2 0 ∧
    4100 ≤ (rise_gaps 0 (emitted st (rpilcd_init_display st).2)).getD 4 0 ∧
    (hold_times 0 (emitted st (rpilcd_init_display st).2)).all (fun h => decide (1 ≤ h))
      = true := by
  rw [init_display_state, emitted_append, latched_init_display_events]
  generalize st.pins.rs = r
  cases r <;> decide

/-- The character loop never changes RS, and leaves EN low when it found EN low. -/
theorem put_string_loop_frame (s : List Int) (st : State) :
    (put_string_loop s st).pins.rs = st.pins.rs ∧
    (st.pins.en = false → (put_string_loop s st).pins.en = false) := by
  induction s generalizing st with
  | nil => simp [put_string_loop]
  | cons c rest ih =>
    by_cases hc : c ≠ 0
    · rw [put_string_loop, if_pos hc, write_byte_state]
      obtain ⟨h1, h2⟩ := ih
        { pins := { rs := st.pins.rs, en := false, d4 := (to_u8 c).testBit 0,
                    d5 := (to_u8 c).testBit 1, d6 := (to_u8 c).testBit 2,
                    d7 := (to_u8 c).testBit 3 },
          trace := st.trace ++ write_byte_events (to_u8 c) st.pins.rs }
      exact ⟨h1, fun _ => h2 rfl⟩
    · rw [put_string_loop, if_neg hc]
      exact ⟨rfl, id⟩

theorem resting_put_string (s : Option (List Int)) (st : State) (h : resting st) :
    resting (rpilcd_put_string s st).2 := by
  cases s with
  | none => exact h
  | some l =>
    have hf := put_string_loop_frame l (gpio_set_value Pin.LCD_RS 1 st)
    have hen : (gpio_set_value Pin.LCD_RS 1 st).pins.en = false := by
      simpa [gpio_set_value, Pins.set] using h.2
    have h2 := hf.2 hen
    simp only [rpilcd_put_string, resting, gpio_set_value, Pins.set]
    simpa using h2

theorem resting_run (op : Op) (st : State) (h : resting st) : resting (op.run st) := by
  cases op with
  | init_display => simp [Op.run, init_display_state, resting, h.1]
  | clear_display => simp [Op.run, clear_display_state, resting]
  | set_cursor row col => simp [Op.run, set_cursor_state, resting]
  | put_char ch => simp [Op.run, put_char_state, resting]
  | put_string s => exact resting_put_string s st h

theorem resting_run_ops (ops : List Op) (st : State) (h : resting st) :
    resting (run_ops ops st) := by
  induction ops generalizing st with
  | nil => exact h
  | cons op ops ih => exact ih _ (resting_run op st h)

theorem latched_rs_init_display (st : State) :
    (latched st.pins (emitted st (rpilcd_init_display st).2)).map Latch.rs =
      List.replicate 14 st.pins.rs := by
  rw [init_display_state, emitted_append, latched_init_display_events]
  simp [high_latch, low_latch, List.replicate]

/-- C13: the predicate "RS is low and EN is low" is preserved by every driver operation
(`rpilcd_init_display`, `rpilcd_clear_display`, `rpilcd_set_cursor`, `rpilcd_put_char`,
`rpilcd_put_string` with a null, empty or any other argument); it holds in the power-on
state, so it holds after any sequence of operations, and from every such state each
command byte of init, clear and set_cursor is latched with RS low. -/
theorem resting_invariant (st : State) (h : resting st) :
    resting (rpilcd_init_display st).2 ∧
    resting (rpilcd_clear_display st) ∧
    (∀ row col : Nat, resting (rpilcd_set_cursor row col st)) ∧
    (∀ ch : Int, resting (rpilcd_put_char ch st)) ∧
    (∀ s : Option (List Int), resting (rpilcd_put_string s st).2) ∧
    resting power_on ∧
    (∀ ops : List Op, resting (run_ops ops st)) ∧
    (∀ ops : List Op,
      (latched (run_ops ops st).pins
        (emitted (run_ops ops st) (rpilcd_init_display (run_ops ops st)).2)).map Latch.rs =
        List.replicate 14 false) ∧
    (∀ ops : List Op,
      (latched (run_ops ops st).pins
        (emitted (run_ops ops st) (rpilcd_clear_display (run_ops ops st)))).map Latch.rs =
        List.replicate 2 false) ∧
    (∀ (ops : List Op) (row col : Nat),
      (latched (run_ops ops st).pins
        (emitted (run_ops ops st) (rpilcd_set_cursor row col (run_ops ops st)))).map Latch.rs =
        List.replicate 2 false) := by
  refine ⟨resting_run Op.init_display st h, resting_run Op.clear_display st h,
    fun row col => resting_run (Op.set_cursor row col) st h,
    fun ch => resting_run (Op.put_char ch) st h,
    fun s => resting_run (Op.put_string s) st h, ⟨rfl, rfl⟩,
    fun ops => resting_run_ops ops st h, ?_, ?_, ?_⟩
  · intro ops
    rw [latched_rs_init_display, (resting_run_ops ops st h).1]
  · intro ops
    rw [clear_display_state, emitted_append]
    simp [latched, Pins.set, Pins.latch, List.replicate]
  · intro ops row col
    rw [latched_set_cursor]
    simp [high_latch, low_latch, List.replicate]

/-- Witness of C13 from the power-on state, for a string write followed by init. -/
theorem resting_invariant_witness :
    resting (run_ops [Op.put_string (some [0x41]), Op.init_display] power_on) :=
  (resting_invariant power_on ⟨rfl, rfl⟩).2.2.2.2.2.2.1
    [Op.put_string (some [0x41]), Op.init_display]

/-- C14: in `rpilcd_write_byte` the wait after each of the two EN pulses is decided by
the level `gpio_get_value` reads on RS and by nothing else: 200 microseconds when RS
reads 1, 4500 to 5500 microseconds when it reads 0; the byte plays no part, RS is not
written, and both waits of one call are the one fixed by RS at entry. -/
theorem write_byte_delay_by_readback (b : Nat) (st : State) :
    settle_waits (emitted st (rpilcd_write_byte b st)) =
      [ (if gpio_get_value Pin.LCD_RS st = 1 then Event.udelay 200
         else Event.usleep_range 4500 5500),
        (if gpio_get_value Pin.LCD_RS st = 1 then Event.udelay 200
         else Event.usleep_range 4500 5500) ] ∧
    (gpio_get_value Pin.LCD_RS st = 1 ∨ gpio_get_value Pin.LCD_RS st = 0) ∧
    gpio_get_value Pin.LCD_RS (rpilcd_write_byte b st) = gpio_get_value Pin.LCD_RS st ∧
    count_writes Pin.LCD_RS (emitted st (rpilcd_write_byte b st)) = 0 ∧
    (∀ (b2 : Nat) (st2 : State),
      gpio_get_value Pin.LCD_RS st2 = gpio_get_value Pin.LCD_RS st →
      settle_waits (emitted st2 (rpilcd_write_byte b2 st2)) =
        settle_waits (emitted st (rpilcd_write_byte b st))) := by
  have key : ∀ (b1 : Nat) (s1 : State),
      settle_waits (emitted s1 (rpilcd_write_byte b1 s1)) =
        [ (if gpio_get_value Pin.LCD_RS s1 = 1 then Event.udelay 200
           else Event.usleep_range 4500 5500),
          (if gpio_get_value Pin.LCD_RS s1 = 1 then Event.udelay 200
           else Event.usleep_range 4500 5500) ] := by
    intro b1 s1
    have h := settle_waits_write_byte_events b1 s1.pins.rs []
    rw [List.append_nil] at h
    rw [write_byte_state, emitted_append, h]
    cases hrs : s1.pins.rs <;>
      simp [settle_event, settle_waits, gpio_get_value, Pins.get, hrs]
  refine ⟨key b st, ?_, ?_, ?_, ?_⟩
  · cases hrs : st.pins.rs <;> simp [gpio_get_value, Pins.get, hrs]
  · rw [write_byte_state]
    simp [gpio_get_value, Pins.get]
  · rw [write_byte_state, emitted_append, count_rs_write_byte_events]
  · intro b2 st2 h2
    rw [key b2 st2, key b st, h2]

/-- Witness of C14: bytes 0x00 and 0xFF written from two states with RS low. -/
theorem write_byte_delay_by_readback_witness :
    settle_waits (emitted (rpilcd_clear_display power_on)
        (rpilcd_write_byte 0xFF (rpilcd_clear_display power_on))) =
      settle_waits (emitted power_on (rpilcd_write_byte 0x00 power_on)) :=
  (write_byte_delay_by_readback 0x00 power_on).2.2.2.2 0xFF (rpilcd_clear_display power_on)
    (by decide)

/-- C15: `rpilcd_write_byte` and `rpilcd_init_display` never write RS: RS at each of
their EN pulses (two and fourteen) and on return is RS at entry; both leave EN low, and
`rpilcd_write_byte b` leaves D4, D5, D6, D7 at bits 0, 1, 2, 3 of `b`. -/
theorem write_byte_init_frame (b : Nat) (st : State) :
    count_writes Pin.LCD_RS (emitted st (rpilcd_write_byte b st)) = 0 ∧
    count_writes Pin.LCD_RS (emitted st (rpilcd_init_display st).2) = 0 ∧
    (latched st.pins (emitted st (rpilcd_write_byte b st))).map Latch.rs =
      List.replicate 2 st.pins.rs ∧
    (latched st.pins (emitted st (rpilcd_init_display st).2)).map Latch.rs =
      List.replicate 14 st.pins.rs ∧
    (rpilcd_write_byte b st).pins.rs = st.pins.rs ∧
    (rpilcd_init_display st).2.pins.rs = st.pins.rs ∧
    (rpilcd_write_byte b st).pins.en = false ∧
    (rpilcd_init_display st).2.pins.en = false ∧
    (rpilcd_write_byte b st).pins.d4 = b.testBit 0 ∧
    (rpilcd_write_byte b st).pins.d5 = b.testBit 1 ∧
    (rpilcd_write_byte b st).pins.d6 = b.testBit 2 ∧
    (rpilcd_write_byte b st).pins.d7 = b.testBit 3 := by
  refine ⟨?_, ?_, ?_, latched_rs_init_display st, ?_, ?_, ?_, ?_, ?_, ?_, ?_, ?_⟩
  · rw [write_byte_state, emitted_append, count_rs_write_byte_events]
  · rw [init_display_state, emitted_append]
    generalize st.pins.rs = r
    cases r <;> decide
  · rw [write_byte_state, emitted_append, latched_write_byte_events]
    simp [high_latch, low_latch, List.replicate]
  all_goals simp [write_byte_state, init_display_state]

theorem wrap_i32_id (x : Int) (h1 : -2147483648 ≤ x) (h2 : x < 2147483648) :
    wrap_i32 x = x := by
  unfold wrap_i32
  omega

theorem pow_loop_eq (p : Nat) : ∀ (n ret : Nat), ret * p ^ n < 2147483648 →
    pow_loop (p : Int) n (ret : Int) = ((ret * p ^ n : Nat) : Int) := by
  intro n
  induction n with
  | zero =>
    intro ret _
    simp [pow_loop]
  | succ n ih =>
    intro ret h
    have e : ret * p ^ (n + 1) = ret * p * p ^ n := by
      rw [pow_succ]
      ring
    rw [e] at h
    have hb : ret * p < 2147483648 := by
      rcases Nat.eq_zero_or_pos p with hp | hp
      · subst hp
        simp
      · have h1 : 1 ≤ p ^ n := Nat.one_le_pow n p hp
        calc ret * p = ret * p * 1 := by ring
          _ ≤ ret * p * p ^ n := Nat.mul_le_mul_left _ h1
          _ < 2147483648 := h
    have hw : wrap_i32 ((ret : Int) * (p : Int)) = ((ret * p : Nat) : Int) := by
      push_cast
      apply wrap_i32_id
      · have : (0 : Int) ≤ ((ret * p : Nat) : Int) := Int.ofNat_nonneg _
        push_cast at this
        omega
      · have : ((ret * p : Nat) : Int) < 2147483648 := by exact_mod_cast hb
        push_cast at this
        exact this
    rw [pow_loop, hw, ih (ret * p) h, e]

/-- What `rpilcd_pow` computes when nothing overflows: its second argument raised to
the power of its first. -/
theorem rpilcd_pow_eq (v p : Nat) (h : p ^ v < 2147483648) :
    rpilcd_pow (v : Int) (p : Int) = ((p ^ v : Nat) : Int) := by
  cases v with
  | zero => simp [rpilcd_pow, pow_loop]
  | succ k =>
    have hpos : ((k + 1 : Nat) : Int) > 0 := by omega
    have hk : (((k + 1 : Nat) : Int) - 1).toNat = k := by omega
    have h2 : 1 * p ^ (k + 1) < 2147483648 := by omega
    have e : p ^ (k + 1) = p * p ^ k := by
      rw [pow_succ]
      ring
    simp only [rpilcd_pow, if_pos hpos, hk]
    rw [pow_loop_eq p k p (by rw [← e]; exact h), e]

theorem atoi_loop_digits (buf : Nat → Int) (count : Nat) (hc : count ≤ 9)
    (hd : ∀ i, i < count → 0x30 ≤ buf i ∧ buf i ≤ 0x39) :
    ∀ n : Nat, n ≤ count → ∀ value : Int, 0 ≤ value → value < 10 ^ (count - n) →
      atoi_loop buf count n value =
        (0, value +
          ((List.range n).map (fun i => (buf i - 0x30) * 10 ^ (count - 1 - i))).sum) := by
  intro n
  induction n with
  | zero =>
    intro _ value _ _
    simp [atoi_loop]
  | succ n ih =>
    intro hn value h0 hlt
    have hdn := hd n (by omega)
    have hcond : buf n ≥ 0x30 ∧ buf n ≤ 0x39 := ⟨hdn.1, hdn.2⟩
    have harg : wrap_i32 (wrap_i32 ((count : Int) - 1) - (n : Int)) =
        ((count - 1 - n : Nat) : Int) := by
      rw [wrap_i32_id ((count : Int) - 1) (by omega) (by omega),
        wrap_i32_id _ (by omega) (by omega)]
      omega
    have hP : (10 : Nat) ^ (count - 1 - n) ≤ 10 ^ 8 :=
      Nat.pow_le_pow_right (by norm_num) (by omega)
    have hP1 : 1 ≤ (10 : Nat) ^ (count - 1 - n) := Nat.one_le_pow _ _ (by norm_num)
    norm_num at hP
    have hpow : rpilcd_pow ((count - 1 - n : Nat) : Int) 10 =
        (((10 : Nat) ^ (count - 1 - n) : Nat) : Int) := by
      have h := rpilcd_pow_eq (count - 1 - n) 10 (by omega)
      simpa using h
    have hk : count - (n + 1) = count - 1 - n := by omega
    have hten : (10 : Int) ^ (count - n) = 10 * (((10 : Nat) ^ (count - 1 - n) : Nat) : Int) := by
      have e : count - n = (count - 1 - n) + 1 := by omega
      rw [e, pow_succ]
      push_cast
      ring
    have hcast : (10 : Int) ^ (count - 1 - n) = (((10 : Nat) ^ (count - 1 - n) : Nat) : Int) := by
      push_cast
      rfl
    rw [hk, hcast] at hlt
    have hPi : (((10 : Nat) ^ (count - 1 - n) : Nat) : Int) ≤ 100000000 := by exact_mod_cast hP
    have hPi1 : (1 : Int) ≤ (((10 : Nat) ^ (count - 1 - n) : Nat) : Int) := by exact_mod_cast hP1
    rw [atoi_loop, if_pos hcond, harg, hpow, List.range_succ, List.map_append,
      List.sum_append]
    simp only [List.map_cons, List.map_nil, List.sum_cons, List.sum_nil, add_zero]
    rw [hcast]
    generalize (((10 : Nat) ^ (count - 1 - n) : Nat) : Int) = P at hlt hPi hPi1 hten ⊢
    have hd0 : 0 ≤ buf n - 48 := by omega
    have hd9 : buf n - 48 ≤ 9 := by omega
    have hm0 : 0 ≤ (buf n - 48) * P := mul_nonneg hd0 (by omega)
    have hm9 : (buf n - 48) * P ≤ 9 * P := mul_le_mul_of_nonneg_right hd9 (by omega)
    rw [wrap_i32_id ((buf n - 48) * P) (by linarith) (by linarith),
      wrap_i32_id (value + (buf n - 48) * P) (by linarith) (by linarith),
      ih (by omega) _ (by linarith) (by rw [hten]; linarith)]
    rw [add_assoc, add_comm ((buf n - 48) * P)]

theorem atoi_start_counter (count : Nat) (hc : count < 2147483648) :
    (wrap_i32 (wrap_i32 (count : Int) - 1) + 1).toNat = count := by
  rw [wrap_i32_id (count : Int) (by omega) (by omega),
    wrap_i32_id ((count : Int) - 1) (by omega) (by omega)]
  omega

/-- C16: for every buffer whose first `count` characters, `0 <= count <= 9`, are all
ASCII digits, `rpilcd_atoi` returns 0 and stores the decimal value of the digit string
read most significant digit first; leading zeros are accepted, and with `count = 0` the
result is 0 with value 0. -/
theorem atoi_digits (buf : Nat → Int) (count : Nat) (hc : count ≤ 9)
    (hd : ∀ i, i < count → 0x30 ≤ buf i ∧ buf i ≤ 0x39) :
    rpilcd_atoi buf count = (0, decimal_value buf count) ∧
    decimal_value buf count =
      ((List.range count).map (fun i => (buf i - 0x30) * 10 ^ (count - 1 - i))).sum ∧
    rpilcd_atoi buf 0 = (0, 0) := by
  refine ⟨?_, rfl, ?_⟩
  · unfold rpilcd_atoi
    rw [atoi_start_counter count (by omega),
      atoi_loop_digits buf count hc hd count (le_refl count) 0 (le_refl 0) (by simp)]
    simp [decimal_value]
  · simp [rpilcd_atoi, wrap_i32, atoi_loop]

/-- Witness of C16 on the three characters "007". -/
theorem atoi_digits_witness :
    rpilcd_atoi (fun i => [0x30, 0x30, 0x37].getD i 0) 3 = (0, 7) :=
  (atoi_digits (fun i => [0x30, 0x30, 0x37].getD i 0) 3 (by decide)
    (by
      intro i hi
      interval_cases i <;> decide)).1

theorem atoi_loop_result (buf : Nat → Int) (count : Nat) :
    ∀ (n : Nat) (value : Int),
      ((atoi_loop buf count n value).1 = -1 ↔
        ∃ i, i < n ∧ ¬ (0x30 ≤ buf i ∧ buf i ≤ 0x39)) ∧
      ((atoi_loop buf count n value).1 = 0 ↔
        ∀ i, i < n → (0x30 ≤ buf i ∧ buf i ≤ 0x39)) := by
  intro n
  induction n with
  | zero =>
    intro value
    simp [atoi_loop]
  | succ n ih =>
    intro value
    by_cases hdig : buf n ≥ 0x30 ∧ buf n ≤ 0x39
    · rw [atoi_loop, if_pos hdig]
      obtain ⟨h1, h2⟩ := ih (wrap_i32 (value + wrap_i32 ((buf n - 0x30) *
        rpilcd_pow (wrap_i32 (wrap_i32 ((count : Int) - 1) - (n : Int))) 10)))
      constructor
      · rw [h1]
        constructor
        · rintro ⟨i, hi, hb⟩
          exact ⟨i, by omega, hb⟩
        · rintro ⟨i, hi, hb⟩
          have hne : i ≠ n := by
            intro e
            subst e
            exact hb ⟨hdig.1, hdig.2⟩
          exact ⟨i, by omega, hb⟩
      · rw [h2]
        constructor
        · intro h i hi
          by_cases e : i = n
          · subst e
            exact ⟨hdig.1, hdig.2⟩
          · exact h i (by omega)
        · intro h i hi
          exact h i (by omega)
    · rw [atoi_loop, if_neg hdig]
      constructor
      · constructor
        · intro _
          exact ⟨n, by omega, fun h => hdig ⟨h.1, h.2⟩⟩
        · intro _
          rfl
      · constructor
        · intro h
          simp at h
        · intro h
          exact absurd ⟨(h n (by omega)).1, (h n (by omega)).2⟩ hdig

/-- C17, counterexample: with `count = 2^31 + 1` the start index `(int)count - 1` is
negative, the loop is not entered and `rpilcd_atoi` returns 0 although every character
of the buffer is 'A'. -/
theorem atoi_large_count_counterexample :
    rpilcd_atoi (fun _ => 0x41) (2 ^ 31 + 1) = (0, 0) ∧
    (rpilcd_atoi (fun _ => 0x41) (2 ^ 31 + 1)).1 ≠ -1 ∧
    (∃ i, i < 2 ^ 31 + 1 ∧
      ¬ (0x30 ≤ (fun _ : Nat => (0x41 : Int)) i ∧ (fun _ : Nat => (0x41 : Int)) i ≤ 0x39)) := by
  refine ⟨by decide, by decide, 0, by norm_num, by decide⟩

/-- C17, amended: for every buffer and every count up to `INT_MAX` (2^31 - 1),
`rpilcd_atoi` returns -1 exactly when at least one of the first `count` characters lies
outside '0'..'9', wherever it is, and returns 0 exactly when none does. -/
theorem atoi_result (buf : Nat → Int) (count : Nat) (hc : count < 2 ^ 31) :
    ((rpilcd_atoi buf count).1 = -1 ↔
      ∃ i, i < count ∧ ¬ (0x30 ≤ buf i ∧ buf i ≤ 0x39)) ∧
    ((rpilcd_atoi buf count).1 = 0 ↔
      ∀ i, i < count → (0x30 ≤ buf i ∧ buf i ≤ 0x39)) := by
  unfold rpilcd_atoi
  rw [atoi_start_counter count (by omega)]
  exact atoi_loop_result buf count count 0

/-- Witness of the amended C17 on the three characters "1A3". -/
theorem atoi_result_witness :
    (rpilcd_atoi (fun i => [0x31, 0x41, 0x33].getD i 0) 3).1 = -1 :=
  ((atoi_result (fun i => [0x31, 0x41, 0x33].getD i 0) 3 (by norm_num)).1).2
    ⟨1, by decide, by decide⟩

/-- C18: `rpilcd_pow 2 3` is 9, not 2 to the power 3: the function raises its second
argument to the power of its first (`rpilcd_pow 3 2` is 8). -/
theorem rpilcd_pow_swapped :
    rpilcd_pow 2 3 = 9 ∧ rpilcd_pow 2 3 ≠ 2 ^ 3 ∧ rpilcd_pow 3 2 = 8 ∧
    rpilcd_pow 3 2 ≠ 3 ^ 2 := by
  decide

end Rpilcd
